import Mathlib

/-
Verification of the FADBADSwift Taylor-series bridge
(Sources/fadbadxx/TaylorBridge.cpp, Sources/fadbadxx/include/TaylorBridge.hpp)
against its specification.

The bridge wraps the Taylor coefficient engine of fadbad (tadiff.h, type
fadbad::T<double>), whose sources are not part of this repository; following the
specification, the engine (coefficient store, recurrence evaluator, elementary
function recurrence library, derivative extractor) is modelled here from the
specification text, while the bridge functions are translated from
TaylorBridge.cpp.  Coefficients are modelled over an arbitrary linear ordered
field F (instantiated at the rationals for concrete evaluations); the order-0
values of the transcendental scalar functions (sin, cos, exp, log, sqrt, asin,
acos, atan applied to the expansion point) are supplied as a parameter bundle
Sc F, since only their order-0 values enter the recurrences.
-/

/-- Modelled from the spec (section 7): the three error kinds of the engine,
OrderNotComputed, SingularExpansion and DomainError. -/
inductive TErr : Type where
  | OrderNotComputed : TErr
  | SingularExpansion : TErr
  | DomainError : TErr
deriving DecidableEq, Repr

/-- Modelled from the spec (section 4.3): the scalar elementary functions used to
seed the order-0 coefficient of each transcendental recurrence (the engine calls
the host floating point library for these; only their values at the expansion
point enter the recurrences, so they are kept abstract here). -/
structure Sc (F : Type) : Type where
  sin0 : F → F
  cos0 : F → F
  exp0 : F → F
  log0 : F → F
  sqrt0 : F → F
  asin0 : F → F
  acos0 : F → F
  atan0 : F → F

section Sequences

variable {F : Type} [LinearOrderedField F]

/-- Modelled from the spec (section 4.3, mul): discrete Leibniz convolution,
coefficient n of a product of series. -/
def conv (f g : ℕ → F) (n : ℕ) : F :=
  ∑ i ∈ Finset.range (n + 1), f i * g (n - i)

/-- Formal coefficient-level derivative of a sequence: coefficient n of the
derivative of the series with coefficients f. -/
def dseq (f : ℕ → F) (n : ℕ) : F :=
  ((n : F) + 1) * f (n + 1)

/-- Modelled from the spec (section 4.3, div):
c n = (a n - sum of c i * b (n-i) for i < n) / b 0. -/
def divSeq (a b : ℕ → F) (n : ℕ) : F :=
  (a n - ∑ i ∈ (Finset.range n).attach, divSeq a b i.1 * b (n - i.1)) / b 0
termination_by n
decreasing_by exact Finset.mem_range.mp i.2

/-- Modelled from the spec (section 4.3, sqrt): c 0 is the scalar square root of
a 0 (supplied as r0); c n = (a n - sum of c i * c (n-i) for 0 < i < n) / (2 * c 0). -/
def sqrtSeq (r0 : F) (a : ℕ → F) (n : ℕ) : F :=
  if n = 0 then r0 else
    (a n -
        ∑ i ∈ (Finset.Ico 1 n).attach,
          sqrtSeq r0 a i.1 * sqrtSeq r0 a (n - i.1)) / (2 * r0)
termination_by n
decreasing_by
  all_goals (have h := Finset.mem_Ico.mp i.2; omega)

/-- Modelled from the spec (section 4.3, exp): c 0 is the scalar exponential of
a 0 (supplied as e0); c n = (1/n) * sum of (n-i) * a (n-i) * c i for i < n. -/
def expSeq (e0 : F) (a : ℕ → F) (n : ℕ) : F :=
  if n = 0 then e0 else
    (∑ i ∈ (Finset.range n).attach,
        ((n : F) - (i.1 : F)) * a (n - i.1) * expSeq e0 a i.1) / (n : F)
termination_by n
decreasing_by exact Finset.mem_range.mp i.2

/-- Modelled from the spec (section 4.3, log): c 0 is the scalar logarithm of
a 0 (supplied as l0); c n = (a n - (1/n) * sum of i * c i * a (n-i) for 0 < i < n) / a 0. -/
def logSeq (l0 : F) (a : ℕ → F) (n : ℕ) : F :=
  if n = 0 then l0 else
    (a n -
        (∑ i ∈ (Finset.Ico 1 n).attach,
          (i.1 : F) * logSeq l0 a i.1 * a (n - i.1)) / (n : F)) / a 0
termination_by n
decreasing_by exact (Finset.mem_Ico.mp i.2).2

/-- Modelled from the spec (section 4.3, sin and cos): the jointly recursive
sine and cosine coefficient streams over an operand stream a, seeded with the
scalar values s0 = sin(a 0) and k0 = cos(a 0); for n at least 1,
s n = (1/n) * sum of i * a i * k (n-i) for 1 <= i <= n, and
k n = -(1/n) * sum of i * a i * s (n-i) for 1 <= i <= n.  Requesting one of the
two streams still materializes both (the pair is computed jointly). -/
def sincosSeq (s0 k0 : F) (a : ℕ → F) : ℕ → F × F
  | 0 => (s0, k0)
  | n + 1 =>
    ((∑ i ∈ Finset.range (n + 1),
        ((i : F) + 1) * a (i + 1) * (sincosSeq s0 k0 a (n - i)).2) / ((n : F) + 1),
     -((∑ i ∈ Finset.range (n + 1),
        ((i : F) + 1) * a (i + 1) * (sincosSeq s0 k0 a (n - i)).1) / ((n : F) + 1)))
termination_by n => n
decreasing_by all_goals omega

/-- Coefficient stream of the constant-one series, used by the inverse
trigonometric recurrences. -/
def oneSeq : ℕ → F := fun n => if n = 0 then 1 else 0

/-- Modelled from the spec (section 4.3, asin/acos/atan): term-by-term
integration of a stream, seeded with a given order-0 value; inverse of dseq. -/
def integSeq (c0 : F) (g : ℕ → F) : ℕ → F
  | 0 => c0
  | n + 1 => g n / ((n : F) + 1)

end Sequences

/-- Modelled from the spec (section 3): a series node is a tagged variant over
constants, caller-seeded variable leaves, and recorded unary or binary
operations over operand nodes.  A Variable leaf carries its caller-set
coefficient sequence (the spec's standard seeding [x0, 1, 0, 0, ...] is such a
sequence). -/
inductive Node (F : Type) : Type where
  | const : F → Node F
  | var : (ℕ → F) → Node F
  | add : Node F → Node F → Node F
  | sub : Node F → Node F → Node F
  | mul : Node F → Node F → Node F
  | div : Node F → Node F → Node F
  | neg : Node F → Node F
  | pos : Node F → Node F
  | powS : Node F → Node F → Node F
  | sqr : Node F → Node F
  | sqrtN : Node F → Node F
  | expN : Node F → Node F
  | logN : Node F → Node F
  | sinN : Node F → Node F
  | cosN : Node F → Node F
  | tanN : Node F → Node F
  | asinN : Node F → Node F
  | acosN : Node F → Node F
  | atanN : Node F → Node F

section NodeSemantics

variable {F : Type} [LinearOrderedField F]

/-- Modelled from the spec (sections 4.2 and 4.3): the coefficient at each order
of the series denoted by a node, given by the recurrence of the node's operation
kind applied to the operand coefficient streams.  Constants have order-0
coefficient equal to their value and 0 at all higher orders (the fast path of
section 4.2); a Variable's coefficients are its caller-set seeds; tan is derived
as sin/cos; asin, acos and atan use the standard inverse-trigonometric
recurrences (integration of a' / sqrt(1 - a^2) and a' / (1 + a^2)); powS uses
the log-exp composition a^b = exp(b * log a) of section 4.3.  Division by a
singular leading coefficient produces an unspecified value here; the error
analysis is in errOf. -/
def pcoeff (sc : Sc F) : Node F → ℕ → F
  | Node.const v => fun n => if n = 0 then v else 0
  | Node.var s => s
  | Node.add a b => fun n => pcoeff sc a n + pcoeff sc b n
  | Node.sub a b => fun n => pcoeff sc a n - pcoeff sc b n
  | Node.mul a b => conv (fun i => pcoeff sc a i) (fun i => pcoeff sc b i)
  | Node.div a b => divSeq (fun i => pcoeff sc a i) (fun i => pcoeff sc b i)
  | Node.neg a => fun n => -(pcoeff sc a n)
  | Node.pos a => fun n => pcoeff sc a n
  | Node.powS a b =>
      expSeq (sc.exp0 (pcoeff sc b 0 * sc.log0 (pcoeff sc a 0)))
        (conv (fun i => pcoeff sc b i)
          (logSeq (sc.log0 (pcoeff sc a 0)) (fun i => pcoeff sc a i)))
  | Node.sqr a => conv (fun i => pcoeff sc a i) (fun i => pcoeff sc a i)
  | Node.sqrtN a => sqrtSeq (sc.sqrt0 (pcoeff sc a 0)) (fun i => pcoeff sc a i)
  | Node.expN a => expSeq (sc.exp0 (pcoeff sc a 0)) (fun i => pcoeff sc a i)
  | Node.logN a => logSeq (sc.log0 (pcoeff sc a 0)) (fun i => pcoeff sc a i)
  | Node.sinN a => fun n =>
      (sincosSeq (sc.sin0 (pcoeff sc a 0)) (sc.cos0 (pcoeff sc a 0))
        (fun i => pcoeff sc a i) n).1
  | Node.cosN a => fun n =>
      (sincosSeq (sc.sin0 (pcoeff sc a 0)) (sc.cos0 (pcoeff sc a 0))
        (fun i => pcoeff sc a i) n).2
  | Node.tanN a =>
      divSeq
        (fun n => (sincosSeq (sc.sin0 (pcoeff sc a 0)) (sc.cos0 (pcoeff sc a 0))
          (fun i => pcoeff sc a i) n).1)
        (fun n => (sincosSeq (sc.sin0 (pcoeff sc a 0)) (sc.cos0 (pcoeff sc a 0))
          (fun i => pcoeff sc a i) n).2)
  | Node.asinN a =>
      integSeq (sc.asin0 (pcoeff sc a 0))
        (divSeq (dseq (fun i => pcoeff sc a i))
          (sqrtSeq (sc.sqrt0 (1 - pcoeff sc a 0 ^ 2))
            (fun n => oneSeq n - conv (fun i => pcoeff sc a i) (fun i => pcoeff sc a i) n)))
  | Node.acosN a =>
      integSeq (sc.acos0 (pcoeff sc a 0))
        (fun n => -(divSeq (dseq (fun i => pcoeff sc a i))
          (sqrtSeq (sc.sqrt0 (1 - pcoeff sc a 0 ^ 2))
            (fun m => oneSeq m - conv (fun i => pcoeff sc a i) (fun i => pcoeff sc a i) m)) n))
  | Node.atanN a =>
      integSeq (sc.atan0 (pcoeff sc a 0))
        (divSeq (dseq (fun i => pcoeff sc a i))
          (fun n => oneSeq n + conv (fun i => pcoeff sc a i) (fun i => pcoeff sc a i) n))

/-- Modelled from the spec (sections 4.2, 4.3 and 7): the error, if any, that
evaluating any coefficient of a node reports synchronously.  Every recurrence
applies its order-0 step on any evaluation, so the error condition of a node is
independent of the requested order: div (and pow, section 4.2 tie-break) fail
with SingularExpansion on a singular leading operand coefficient, sqrt and log
fail with DomainError outside their real domain, asin and acos fail with
DomainError when the order-0 operand coefficient has magnitude above 1, tan
(derived as sin/cos) fails with SingularExpansion when cos at the expansion
point is 0.  For div the divisor is prepared first, so its errors (and the
singular check on its leading coefficient) are reported before the numerator's. -/
def errOf (sc : Sc F) : Node F → Option TErr
  | Node.const _ => none
  | Node.var _ => none
  | Node.add a b => (errOf sc a).orElse fun _ => errOf sc b
  | Node.sub a b => (errOf sc a).orElse fun _ => errOf sc b
  | Node.mul a b => (errOf sc a).orElse fun _ => errOf sc b
  | Node.div a b =>
      match errOf sc b with
      | some e => some e
      | none =>
        if pcoeff sc b 0 = 0 then some TErr.SingularExpansion else errOf sc a
  | Node.neg a => errOf sc a
  | Node.pos a => errOf sc a
  | Node.powS a b =>
      match errOf sc a with
      | some e => some e
      | none =>
        match errOf sc b with
        | some e => some e
        | none => if pcoeff sc a 0 = 0 then some TErr.SingularExpansion else none
  | Node.sqr a => errOf sc a
  | Node.sqrtN a =>
      match errOf sc a with
      | some e => some e
      | none => if pcoeff sc a 0 < 0 then some TErr.DomainError else none
  | Node.expN a => errOf sc a
  | Node.logN a =>
      match errOf sc a with
      | some e => some e
      | none => if pcoeff sc a 0 ≤ 0 then some TErr.DomainError else none
  | Node.sinN a => errOf sc a
  | Node.cosN a => errOf sc a
  | Node.tanN a =>
      match errOf sc a with
      | some e => some e
      | none =>
        if sc.cos0 (pcoeff sc a 0) = 0 then some TErr.SingularExpansion else none
  | Node.asinN a =>
      match errOf sc a with
      | some e => some e
      | none => if 1 < |pcoeff sc a 0| then some TErr.DomainError else none
  | Node.acosN a =>
      match errOf sc a with
      | some e => some e
      | none => if 1 < |pcoeff sc a 0| then some TErr.DomainError else none
  | Node.atanN a => errOf sc a

/-- Modelled from the spec (sections 4.2 and 7): demanding a coefficient of a
node either fails synchronously with the node's error, or yields the recurrence
value of that coefficient. -/
def coeff (sc : Sc F) (x : Node F) (n : ℕ) : Except TErr F :=
  match errOf sc x with
  | some e => Except.error e
  | none => Except.ok (pcoeff sc x n)

end NodeSemantics

/-- Translated from TaylorBridge.hpp (class TaylorBridge): the bridge value wraps
an engine series (m_taylorType); in this embedding the engine series is its
recorded node together with the valid-through watermark of its coefficient
store (spec section 4.1; -1 means nothing valid).  Coefficient values are
determined by the recurrences (pcoeff), so the store's cached cells are not
duplicated here; the watermark is the observable cache state. -/
structure TaylorBridge (F : Type) : Type where
  node : Node F
  vt : ℤ

section Bridge

variable {F : Type} [LinearOrderedField F]

/-- Translated from TaylorBridge.cpp lines 17-22 (TaylorBridge(const double&)):
constructing a bridge from a scalar creates a seedable leaf whose order-0
coefficient is the value and whose higher orders are 0, with order 0 valid.
The leaf is a Variable in the spec's sense (its coefficients may subsequently
be set by setSubscriptValue, encoding the standard seeding). -/
def fromScalar (v : F) : TaylorBridge F :=
  ⟨Node.var fun n => if n = 0 then v else 0, 0⟩

/-- Modelled from the spec (sections 4.1 and 6): the raw subscript of the
underlying coefficient store (the engine's operator[] that the bridge forwards
to).  The specified interface reads coefficients only at non-negative orders; a
negative index lies outside it and reads the store's default-initialized
backing storage, modelled as 0. -/
def underlyingSubscript (sc : Sc F) (x : TaylorBridge F) (index : ℤ) : F :=
  if 0 ≤ index then pcoeff sc x.node index.toNat else 0

/-- Translated from TaylorBridge.cpp lines 35-38 (getSubscriptValue): returns
m_taylorType[index] directly — the signed index is forwarded unchecked to the
underlying store subscript, and the return type is a plain coefficient value
with no error branch. -/
def getSubscriptValue (sc : Sc F) (x : TaylorBridge F) (index : ℤ) : F :=
  underlyingSubscript sc x index

/-- Translated from TaylorBridge.cpp lines 40-43 (setSubscriptValue), with the
store semantics of spec section 4.1: writing a coefficient of a Variable leaf
updates its seed sequence and advances the watermark to the maximum order ever
set; on a non-Variable node the watermark is extended only when the write is at
order validThrough + 1 (and the coefficient cell itself is cache whose value is
determined by the recurrences, so the denotation is unchanged). -/
def setSubscriptValue (x : TaylorBridge F) (index : ℕ) (value : F) : TaylorBridge F :=
  match x.node with
  | Node.var s => ⟨Node.var (Function.update s index value), max x.vt (index : ℤ)⟩
  | n => ⟨n, if (index : ℤ) = x.vt + 1 then x.vt + 1 else x.vt⟩

/-- Modelled from the spec (section 4.1): the watermark-checked coefficient read
of the engine's store: the coefficient when order is at most validThrough, the
error OrderNotComputed otherwise. -/
def TaylorBridge.get (sc : Sc F) (x : TaylorBridge F) (order : ℤ) : Except TErr F :=
  if order ≤ x.vt then Except.ok (underlyingSubscript sc x order)
  else Except.error TErr.OrderNotComputed

/-- Modelled from the spec (sections 4.4 and 6): how many orders of a series are
currently valid, as an unsigned count (validThrough + 1). -/
def validOrderCount (x : TaylorBridge F) : ℕ :=
  (x.vt + 1).toNat

/-- Translated from TaylorBridge.cpp lines 45-48 (eval), engine semantics
modelled from the spec (sections 4.2 and 6): forces evaluation of the series
through order i (failing synchronously with the node's error, if any), which
makes the watermark at least i, and returns the count of currently valid
orders. -/
def TaylorBridge.eval (sc : Sc F) (x : TaylorBridge F) (i : ℕ) :
    Except TErr (TaylorBridge F × ℕ) :=
  match errOf sc x.node with
  | some e => Except.error e
  | none =>
    Except.ok (⟨x.node, max x.vt (i : ℤ)⟩, validOrderCount ⟨x.node, max x.vt (i : ℤ)⟩)

/-- Modelled from the spec (sections 3 and 4.1): resetting discards a node's
coefficients — a Variable leaf's caller-set seeds are logically discarded
(subsequent reads of unreseeded orders see default storage, 0) — without
altering operation kinds or operand links. -/
def resetNode : Node F → Node F
  | Node.const v => Node.const v
  | Node.var _ => Node.var fun _ => (0 : F)
  | Node.add a b => Node.add (resetNode a) (resetNode b)
  | Node.sub a b => Node.sub (resetNode a) (resetNode b)
  | Node.mul a b => Node.mul (resetNode a) (resetNode b)
  | Node.div a b => Node.div (resetNode a) (resetNode b)
  | Node.neg a => Node.neg (resetNode a)
  | Node.pos a => Node.pos (resetNode a)
  | Node.powS a b => Node.powS (resetNode a) (resetNode b)
  | Node.sqr a => Node.sqr (resetNode a)
  | Node.sqrtN a => Node.sqrtN (resetNode a)
  | Node.expN a => Node.expN (resetNode a)
  | Node.logN a => Node.logN (resetNode a)
  | Node.sinN a => Node.sinN (resetNode a)
  | Node.cosN a => Node.cosN (resetNode a)
  | Node.tanN a => Node.tanN (resetNode a)
  | Node.asinN a => Node.asinN (resetNode a)
  | Node.acosN a => Node.acosN (resetNode a)
  | Node.atanN a => Node.atanN (resetNode a)

/-- Translated from TaylorBridge.cpp lines 50-53 (reset), engine semantics
modelled from the spec (section 4.1): the watermark is cleared to -1 (nothing
valid) and all coefficients are logically discarded, without altering the
operation kind or operand links. -/
def TaylorBridge.reset (x : TaylorBridge F) : TaylorBridge F :=
  ⟨resetNode x.node, -1⟩

/-- Modelled from the spec (section 4.4, nthDerivative): the derivative value at
order n, computed incrementally — the running factorial 1 * 2 * ... * n is
multiplied into the validated coefficient at order n. -/
def tdiffVal (sc : Sc F) (x : Node F) (n : ℕ) : F :=
  (List.range n).foldl (fun (d : F) (j : ℕ) => d * ((j : F) + 1)) (pcoeff sc x n)

/-- Modelled from the spec (sections 4.4 and 6, the engine's derivative
extractor used by the bridge as fadbad's diff): forces evaluation of the series
through order n (failing synchronously with the node's error, if any) and
returns the nth derivative value coefficient n * n-factorial as a plain
number. -/
def tdiff (sc : Sc F) (x : TaylorBridge F) (n : ℕ) : Except TErr F :=
  match errOf sc x.node with
  | some e => Except.error e
  | none => Except.ok (tdiffVal sc x.node n)

/-- Translated from TaylorBridge.cpp lines 208-211 and TaylorBridge.hpp line 70
(differentiate): calls the engine's derivative extractor, whose plain
floating-point result is then converted back into a TaylorBridge by the
declared return type through the scalar constructor. -/
def differentiate (sc : Sc F) (x : TaylorBridge F) (order : ℕ) :
    Except TErr (TaylorBridge F) :=
  (tdiff sc x order).map fromScalar

end Bridge

section BuildFunctions

variable {F : Type} [LinearOrderedField F]

/-- Translated from TaylorBridge.cpp lines 55-59 (BuildAddition, series-series):
records an addition node over the two operand series and wraps it; nothing is
evaluated at construction (watermark -1). -/
def BuildAddition (lhs rhs : TaylorBridge F) : TaylorBridge F :=
  ⟨Node.add lhs.node rhs.node, -1⟩

/-- Translated from TaylorBridge.cpp lines 61-65 (BuildAddition, series-scalar):
the raw scalar operand enters as a Constant (spec section 4.2 fast path). -/
def BuildAdditionSR (lhs : TaylorBridge F) (rhs : F) : TaylorBridge F :=
  ⟨Node.add lhs.node (Node.const rhs), -1⟩

/-- Translated from TaylorBridge.cpp lines 67-71 (BuildAddition, scalar-series). -/
def BuildAdditionSL (lhs : F) (rhs : TaylorBridge F) : TaylorBridge F :=
  ⟨Node.add (Node.const lhs) rhs.node, -1⟩

/-- Translated from TaylorBridge.cpp lines 73-77 (BuildSubtraction, series-series). -/
def BuildSubtraction (lhs rhs : TaylorBridge F) : TaylorBridge F :=
  ⟨Node.sub lhs.node rhs.node, -1⟩

/-- Translated from TaylorBridge.cpp lines 79-83 (BuildSubtraction, series-scalar). -/
def BuildSubtractionSR (lhs : TaylorBridge F) (rhs : F) : TaylorBridge F :=
  ⟨Node.sub lhs.node (Node.const rhs), -1⟩

/-- Translated from TaylorBridge.cpp lines 85-89 (BuildSubtraction, scalar-series). -/
def BuildSubtractionSL (lhs : F) (rhs : TaylorBridge F) : TaylorBridge F :=
  ⟨Node.sub (Node.const lhs) rhs.node, -1⟩

/-- Translated from TaylorBridge.cpp lines 91-95 (BuildMultiplication, series-series). -/
def BuildMultiplication (lhs rhs : TaylorBridge F) : TaylorBridge F :=
  ⟨Node.mul lhs.node rhs.node, -1⟩

/-- Translated from TaylorBridge.cpp lines 97-101 (BuildMultiplication, series-scalar). -/
def BuildMultiplicationSR (lhs : TaylorBridge F) (rhs : F) : TaylorBridge F :=
  ⟨Node.mul lhs.node (Node.const rhs), -1⟩

/-- Translated from TaylorBridge.cpp lines 103-107 (BuildMultiplication, scalar-series). -/
def BuildMultiplicationSL (lhs : F) (rhs : TaylorBridge F) : TaylorBridge F :=
  ⟨Node.mul (Node.const lhs) rhs.node, -1⟩

/-- Translated from TaylorBridge.cpp lines 109-113 (BuildDivision, series-series). -/
def BuildDivision (lhs rhs : TaylorBridge F) : TaylorBridge F :=
  ⟨Node.div lhs.node rhs.node, -1⟩

/-- Translated from TaylorBridge.cpp lines 115-119 (BuildDivision, series-scalar). -/
def BuildDivisionSR (lhs : TaylorBridge F) (rhs : F) : TaylorBridge F :=
  ⟨Node.div lhs.node (Node.const rhs), -1⟩

/-- Translated from TaylorBridge.cpp lines 121-125 (BuildDivision, scalar-series). -/
def BuildDivisionSL (lhs : F) (rhs : TaylorBridge F) : TaylorBridge F :=
  ⟨Node.div (Node.const lhs) rhs.node, -1⟩

/-- Translated from TaylorBridge.cpp lines 127-131 (BuildUnaryMinus). -/
def BuildUnaryMinus (value : TaylorBridge F) : TaylorBridge F :=
  ⟨Node.neg value.node, -1⟩

/-- Translated from TaylorBridge.cpp lines 133-137 (BuildUnaryPlus). -/
def BuildUnaryPlus (value : TaylorBridge F) : TaylorBridge F :=
  ⟨Node.pos value.node, -1⟩

/-- Translated from TaylorBridge.cpp lines 139-143 (pow, series-series). -/
def pow (value1 value2 : TaylorBridge F) : TaylorBridge F :=
  ⟨Node.powS value1.node value2.node, -1⟩

/-- Translated from TaylorBridge.cpp lines 145-149 (pow, scalar-series). -/
def powSL (value1 : F) (value2 : TaylorBridge F) : TaylorBridge F :=
  ⟨Node.powS (Node.const value1) value2.node, -1⟩

/-- Translated from TaylorBridge.cpp lines 151-155 (pow, series-scalar). -/
def powSR (value1 : TaylorBridge F) (value2 : F) : TaylorBridge F :=
  ⟨Node.powS value1.node (Node.const value2), -1⟩

/-- Translated from TaylorBridge.cpp lines 157-161 (square, fadbad's sqr:
the specialization of mul(a, a), spec section 4.3). -/
def square (value : TaylorBridge F) : TaylorBridge F :=
  ⟨Node.sqr value.node, -1⟩

/-- Translated from TaylorBridge.cpp lines 163-166 (sqrt). -/
def sqrt (value : TaylorBridge F) : TaylorBridge F :=
  ⟨Node.sqrtN value.node, -1⟩

/-- Translated from TaylorBridge.cpp lines 168-171 (exp). -/
def exp (value : TaylorBridge F) : TaylorBridge F :=
  ⟨Node.expN value.node, -1⟩

/-- Translated from TaylorBridge.cpp lines 173-176 (log). -/
def log (value : TaylorBridge F) : TaylorBridge F :=
  ⟨Node.logN value.node, -1⟩

/-- Translated from TaylorBridge.cpp lines 178-181 (sin). -/
def sin (value : TaylorBridge F) : TaylorBridge F :=
  ⟨Node.sinN value.node, -1⟩

/-- Translated from TaylorBridge.cpp lines 183-186 (cos). -/
def cos (value : TaylorBridge F) : TaylorBridge F :=
  ⟨Node.cosN value.node, -1⟩

/-- Translated from TaylorBridge.cpp lines 188-191 (tan). -/
def tan (value : TaylorBridge F) : TaylorBridge F :=
  ⟨Node.tanN value.node, -1⟩

/-- Translated from TaylorBridge.cpp lines 193-196 (asin). -/
def asin (value : TaylorBridge F) : TaylorBridge F :=
  ⟨Node.asinN value.node, -1⟩

/-- Translated from TaylorBridge.cpp lines 198-201 (acos). -/
def acos (value : TaylorBridge F) : TaylorBridge F :=
  ⟨Node.acosN value.node, -1⟩

/-- Translated from TaylorBridge.cpp lines 203-206 (atan). -/
def atan (value : TaylorBridge F) : TaylorBridge F :=
  ⟨Node.atanN value.node, -1⟩

end BuildFunctions

/-- Enumeration of the operation-building functions of TaylorBridge.cpp
(series-operand versions), used to state one frame property over all of them. -/
inductive OpKind : Type where
  | addK | subK | mulK | divK | powK
  | negK | posK | sqrK | sqrtK | expK | logK
  | sinK | cosK | tanK | asinK | acosK | atanK
deriving DecidableEq, Repr

section Frame

variable {F : Type} [LinearOrderedField F]

/-- Number of series operands each operation-building function takes (from the
signatures in TaylorBridge.hpp lines 38-69). -/
def arity : OpKind → ℕ
  | OpKind.addK | OpKind.subK | OpKind.mulK | OpKind.divK | OpKind.powK => 2
  | _ => 1

/-- Dispatch from an operation kind to the corresponding bridge building
function; unary kinds use only the first operand. -/
def buildOf : OpKind → TaylorBridge F → TaylorBridge F → TaylorBridge F
  | OpKind.addK => fun l r => BuildAddition l r
  | OpKind.subK => fun l r => BuildSubtraction l r
  | OpKind.mulK => fun l r => BuildMultiplication l r
  | OpKind.divK => fun l r => BuildDivision l r
  | OpKind.powK => fun l r => pow l r
  | OpKind.negK => fun l _ => BuildUnaryMinus l
  | OpKind.posK => fun l _ => BuildUnaryPlus l
  | OpKind.sqrK => fun l _ => square l
  | OpKind.sqrtK => fun l _ => sqrt l
  | OpKind.expK => fun l _ => exp l
  | OpKind.logK => fun l _ => log l
  | OpKind.sinK => fun l _ => sin l
  | OpKind.cosK => fun l _ => cos l
  | OpKind.tanK => fun l _ => tan l
  | OpKind.asinK => fun l _ => asin l
  | OpKind.acosK => fun l _ => acos l
  | OpKind.atanK => fun l _ => atan l

/-- Operand links recorded in a node, in operand order. -/
def children : Node F → List (Node F)
  | Node.const _ => []
  | Node.var _ => []
  | Node.add a b => [a, b]
  | Node.sub a b => [a, b]
  | Node.mul a b => [a, b]
  | Node.div a b => [a, b]
  | Node.neg a => [a]
  | Node.pos a => [a]
  | Node.powS a b => [a, b]
  | Node.sqr a => [a]
  | Node.sqrtN a => [a]
  | Node.expN a => [a]
  | Node.logN a => [a]
  | Node.sinN a => [a]
  | Node.cosN a => [a]
  | Node.tanN a => [a]
  | Node.asinN a => [a]
  | Node.acosN a => [a]
  | Node.atanN a => [a]

end Frame

section Seeding

variable {F : Type} [LinearOrderedField F]

/-- Seeding a leaf with a list of coefficients cs at consecutive orders
starting from i, by repeated single-coefficient writes (the bridge's only
seeding primitive, setSubscriptValue). -/
def seedList : ℕ → List F → TaylorBridge F → TaylorBridge F
  | _, [], x => x
  | i, c :: cs, x => seedList (i + 1) cs (setSubscriptValue x i c)

end Seeding

section Helpers

variable {F : Type} [LinearOrderedField F]

theorem foldl_mul_factorial (n : ℕ) (d : F) :
    (List.range n).foldl (fun (d : F) (j : ℕ) => d * ((j : F) + 1)) d
      = d * (n.factorial : F) := by
  induction n generalizing d with
  | zero => simp
  | succ n ih =>
    rw [List.range_succ, List.foldl_append]
    simp only [List.foldl_cons, List.foldl_nil, ih]
    rw [Nat.factorial_succ]
    push_cast
    ring

/-- The incremental running-factorial extraction equals coefficient times
factorial. -/
theorem tdiffVal_eq_coeff_mul_factorial (sc : Sc F) (x : Node F) (n : ℕ) :
    tdiffVal sc x n = pcoeff sc x n * (n.factorial : F) := by
  unfold tdiffVal
  exact foldl_mul_factorial n _

end Helpers

/-- Concrete scalar-function bundle over the rationals used to instantiate the
theorems on concrete inputs (its sine value is constantly 0 and its cosine
value constantly 1, a valid order-0 pair). -/
def scW : Sc ℚ :=
  ⟨fun _ => 0, fun _ => 1, fun _ => 0, fun _ => 0, fun _ => 0,
   fun _ => 0, fun _ => 0, fun _ => 0⟩

/-- C2: for every scalar v, the series the bridge constructs from v behaves as
the constant series — the extracted derivative value at order 0 is v, and at
every order n > 0 it is 0. -/
theorem c2_scalar_series_constant_derivatives {F : Type} [LinearOrderedField F]
    (sc : Sc F) (v : F) :
    tdiff sc (fromScalar v) 0 = Except.ok v ∧
    ∀ n : ℕ, 0 < n → tdiff sc (fromScalar v) n = Except.ok 0 := by
  constructor
  · simp [tdiff, errOf, fromScalar, tdiffVal, pcoeff]
  · intro n hn
    simp only [tdiff, fromScalar, errOf]
    rw [tdiffVal_eq_coeff_mul_factorial]
    simp [pcoeff, Nat.pos_iff_ne_zero.mp hn]

/-- Witness for C2 at v = 5, n = 2 over the rationals. -/
theorem c2_witness :
    tdiff scW (fromScalar (5 : ℚ)) 0 = Except.ok 5 ∧
    tdiff scW (fromScalar (5 : ℚ)) 2 = Except.ok 0 :=
  ⟨(c2_scalar_series_constant_derivatives scW 5).1,
   (c2_scalar_series_constant_derivatives scW 5).2 2 (by decide)⟩

/-- C3: for the Variable leaf built from the scalar 2 and seeded with the
standard single-variable seeding (order-1 coefficient set to 1, giving
coefficients [2, 1, 0, 0, ...]), square of it yields derivative value 4 at
order 0, 4 at order 1, 2 at order 2, and 0 at every order above 2. -/
theorem c3_square_of_seeded_variable {F : Type} [LinearOrderedField F]
    (sc : Sc F) :
    tdiff sc (square (setSubscriptValue (fromScalar (2 : F)) 1 1)) 0 = Except.ok 4 ∧
    tdiff sc (square (setSubscriptValue (fromScalar (2 : F)) 1 1)) 1 = Except.ok 4 ∧
    tdiff sc (square (setSubscriptValue (fromScalar (2 : F)) 1 1)) 2 = Except.ok 2 ∧
    ∀ n : ℕ, 2 < n →
      tdiff sc (square (setSubscriptValue (fromScalar (2 : F)) 1 1)) n = Except.ok 0 := by
  have hx : setSubscriptValue (fromScalar (2 : F)) 1 1 =
      ⟨Node.var (Function.update (fun n => if n = 0 then (2 : F) else 0) 1 1), 1⟩ := by
    simp [setSubscriptValue, fromScalar]
  set s : ℕ → F := Function.update (fun n => if n = 0 then (2 : F) else 0) 1 1 with hs
  have hs0 : s 0 = 2 := by simp [hs, Function.update]
  have hs1 : s 1 = 1 := by simp [hs, Function.update]
  have hsk : ∀ m : ℕ, 2 ≤ m → s m = 0 := by
    intro m hm
    have h1 : m ≠ 1 := by omega
    have h0 : m ≠ 0 := by omega
    simp [hs, Function.update, h1, h0]
  have hdiff : ∀ n : ℕ, tdiff sc (square (setSubscriptValue (fromScalar (2 : F)) 1 1)) n =
      Except.ok (conv s s n * (n.factorial : F)) := by
    intro n
    rw [hx]
    simp only [square, tdiff, errOf]
    rw [tdiffVal_eq_coeff_mul_factorial]
    simp [pcoeff]
  refine ⟨?_, ?_, ?_, ?_⟩
  · rw [hdiff 0]
    norm_num [conv, Finset.sum_range_succ, hs0]
  · rw [hdiff 1]
    norm_num [conv, Finset.sum_range_succ, hs0, hs1]
  · rw [hdiff 2]
    norm_num [conv, Finset.sum_range_succ, hs0, hs1, hsk 2 (by omega)]
  · intro n hn
    rw [hdiff n]
    have hz : conv s s n = 0 := by
      apply Finset.sum_eq_zero
      intro i hi
      rcases Nat.lt_or_ge i 2 with hi2 | hi2
      · have : 2 ≤ n - i := by omega
        rw [hsk (n - i) this, mul_zero]
      · rw [hsk i hi2, zero_mul]
    rw [hz, zero_mul]

/-- Witness for C3 at order 3 over the rationals. -/
theorem c3_witness :
    tdiff scW (square (setSubscriptValue (fromScalar (2 : ℚ)) 1 1)) 3 = Except.ok 0 :=
  (c3_square_of_seeded_variable scW).2.2.2 3 (by decide)

/-- C5: for every pair of series a and b, if b evaluates without error and its
order-0 coefficient is 0, then demanding any coefficient of the division a / b
fails synchronously with the error SingularExpansion (never yielding a value),
for every requested order and every numerator a. -/
theorem c5_division_by_singular_series {F : Type} [LinearOrderedField F]
    (sc : Sc F) (a b : Node F) (hb : errOf sc b = none) (h0 : pcoeff sc b 0 = 0)
    (n : ℕ) :
    coeff sc (Node.div a b) n = Except.error TErr.SingularExpansion := by
  simp [coeff, errOf, hb, h0]

/-- Witness for C5: dividing the constant 1 by a zero-seeded leaf fails with
SingularExpansion at order 2. -/
theorem c5_witness :
    coeff scW (Node.div (Node.const 1) (Node.var fun _ => (0 : ℚ))) 2 =
      Except.error TErr.SingularExpansion :=
  c5_division_by_singular_series scW (Node.const 1) (Node.var fun _ => (0 : ℚ))
    (by simp [errOf]) (by simp [pcoeff]) 2

/-- C6: reading a single coefficient through the watermark-checked store read
returns the stored coefficient whenever the order is at most the valid-through
watermark, and otherwise fails with OrderNotComputed rather than returning a
value. -/
theorem c6_get_checks_watermark {F : Type} [LinearOrderedField F]
    (sc : Sc F) (x : TaylorBridge F) (order : ℤ) :
    (order ≤ x.vt →
      TaylorBridge.get sc x order = Except.ok (underlyingSubscript sc x order)) ∧
    (x.vt < order →
      TaylorBridge.get sc x order = Except.error TErr.OrderNotComputed) := by
  constructor
  · intro h
    unfold TaylorBridge.get
    rw [if_pos h]
  · intro h
    unfold TaylorBridge.get
    rw [if_neg (not_le.mpr h)]

/-- Witness for C6 on the scalar-constructed series 5 (watermark 0): order 0 is
readable, order 1 fails with OrderNotComputed. -/
theorem c6_witness :
    TaylorBridge.get scW (fromScalar (5 : ℚ)) 0 =
      Except.ok (underlyingSubscript scW (fromScalar (5 : ℚ)) 0) ∧
    TaylorBridge.get scW (fromScalar (5 : ℚ)) 1 =
      Except.error TErr.OrderNotComputed :=
  ⟨(c6_get_checks_watermark scW (fromScalar (5 : ℚ)) 0).1 (by simp [fromScalar]),
   (c6_get_checks_watermark scW (fromScalar (5 : ℚ)) 1).2 (by simp [fromScalar])⟩

/-- C7: for every series and every order i, eval forces evaluation through
order i — the watermark of the result is the maximum of the old watermark and
i, hence at least i — and returns the count of currently valid orders as an
unsigned number (validOrderCount, the watermark plus one), not a coefficient
or derivative value. -/
theorem c7_eval_forces_and_returns_count {F : Type} [LinearOrderedField F]
    (sc : Sc F) (x : TaylorBridge F) (i : ℕ) (h : errOf sc x.node = none) :
    TaylorBridge.eval sc x i =
      Except.ok (⟨x.node, max x.vt (i : ℤ)⟩,
        validOrderCount (⟨x.node, max x.vt (i : ℤ)⟩ : TaylorBridge F)) ∧
    (i : ℤ) ≤ max x.vt (i : ℤ) := by
  constructor
  · simp [TaylorBridge.eval, h]
  · exact le_max_right _ _

/-- Witness for C7 on the scalar-constructed series 5 evaluated through order
3 (the returned count is 4). -/
theorem c7_witness :
    TaylorBridge.eval scW (fromScalar (5 : ℚ)) 3 =
      Except.ok (⟨(fromScalar (5 : ℚ)).node, max (fromScalar (5 : ℚ)).vt (3 : ℤ)⟩,
        validOrderCount (⟨(fromScalar (5 : ℚ)).node,
          max (fromScalar (5 : ℚ)).vt (3 : ℤ)⟩ : TaylorBridge ℚ)) ∧
    ((3 : ℕ) : ℤ) ≤ max (fromScalar (5 : ℚ)).vt ((3 : ℕ) : ℤ) :=
  c7_eval_forces_and_returns_count scW (fromScalar (5 : ℚ)) 3 (by simp [fromScalar, errOf])

/-- C9: every operation-building function (addition, subtraction,
multiplication, division, unary plus and minus, pow, square, sqrt, exp, log,
sin, cos, tan, asin, acos, atan) records its operand nodes untouched as the
children of the new node — the operands appear unchanged, with their
coefficient streams and watermarks as given, and nothing is evaluated at
construction (the new node's watermark is -1, so the operands are only read,
never written, by building). -/
theorem c9_build_leaves_operands_unchanged {F : Type} [LinearOrderedField F]
    (k : OpKind) (l r : TaylorBridge F) :
    (buildOf k l r).vt = -1 ∧
    children (buildOf k l r).node =
      (if arity k = 2 then [l.node, r.node] else [l.node]) := by
  cases k <;>
    simp [buildOf, arity, children, BuildAddition, BuildSubtraction,
      BuildMultiplication, BuildDivision, pow, BuildUnaryMinus, BuildUnaryPlus,
      square, sqrt, exp, log, sin, cos, tan, asin, acos, atan]

/-- C10: the bridge's coefficient read forwards the signed index unchecked to
the underlying store subscript — the result is independent of the valid-through
watermark (no computed-order guard), a negative index reaches the underlying
store directly (no non-negativity guard), and the returned value is a plain
coefficient with no error branch. -/
theorem c10_getSubscriptValue_unchecked {F : Type} [LinearOrderedField F]
    (sc : Sc F) (x : TaylorBridge F) (index : ℤ) :
    getSubscriptValue sc x index = underlyingSubscript sc x index ∧
    (∀ w : ℤ, getSubscriptValue sc ⟨x.node, w⟩ index = getSubscriptValue sc x index) ∧
    (index < 0 → getSubscriptValue sc x index = 0) := by
  refine ⟨rfl, fun w => rfl, fun h => ?_⟩
  simp [getSubscriptValue, underlyingSubscript, not_le.mpr h]

/-- Witness for C10 at the negative index -1 on the scalar-constructed series
5. -/
theorem c10_witness :
    getSubscriptValue scW (fromScalar (5 : ℚ)) (-1) = 0 :=
  (c10_getSubscriptValue_unchecked scW (fromScalar (5 : ℚ)) (-1)).2.2 (by decide)

/-- C8: resetting any Variable leaf (clearing the watermark to -1 and
discarding its coefficients, without altering kind or links), then re-seeding
it with a nonempty coefficient list written at orders 0, 1, ... and
re-evaluating, produces a state equal to a freshly constructed leaf seeded with
the same coefficients — in particular the same coefficients (watermark-checked
reads) and the same derivative values at every order. -/
theorem c8_reset_reseed_equals_fresh {F : Type} [LinearOrderedField F]
    (s₀ : ℕ → F) (w : ℤ) (cs : List F) (hcs : cs ≠ []) (v : F) :
    seedList 0 cs (TaylorBridge.reset (⟨Node.var s₀, w⟩ : TaylorBridge F)) =
      seedList 0 cs (fromScalar v) ∧
    (∀ (sc : Sc F) (n : ℕ),
      tdiff sc (seedList 0 cs (TaylorBridge.reset (⟨Node.var s₀, w⟩ : TaylorBridge F))) n =
        tdiff sc (seedList 0 cs (fromScalar v)) n) ∧
    (∀ (sc : Sc F) (order : ℤ),
      TaylorBridge.get sc
          (seedList 0 cs (TaylorBridge.reset (⟨Node.var s₀, w⟩ : TaylorBridge F))) order =
        TaylorBridge.get sc (seedList 0 cs (fromScalar v)) order) := by
  have main : seedList 0 cs (TaylorBridge.reset (⟨Node.var s₀, w⟩ : TaylorBridge F)) =
      seedList 0 cs (fromScalar v) := by
    cases cs with
    | nil => exact absurd rfl hcs
    | cons c cs' =>
      have hreset : TaylorBridge.reset (⟨Node.var s₀, w⟩ : TaylorBridge F) =
          ⟨Node.var fun _ => (0 : F), -1⟩ := by
        simp [TaylorBridge.reset, resetNode]
      rw [hreset]
      show seedList 1 cs'
          (setSubscriptValue (⟨Node.var fun _ => (0 : F), -1⟩ : TaylorBridge F) 0 c) =
        seedList 1 cs' (setSubscriptValue (fromScalar v) 0 c)
      have hfun : Function.update (fun _ => (0 : F)) 0 c =
          Function.update (fun n => if n = 0 then v else 0) 0 c := by
        funext n
        by_cases hn : n = 0 <;> simp [Function.update, hn]
      have harg : setSubscriptValue (⟨Node.var fun _ => (0 : F), -1⟩ : TaylorBridge F) 0 c =
          setSubscriptValue (fromScalar v) 0 c := by
        simp [setSubscriptValue, fromScalar, hfun]
      rw [harg]
  exact ⟨main, fun sc n => by rw [main], fun sc order => by rw [main]⟩

/-- Witness for C8 with a stale seed (previous coefficients constantly 7,
previous watermark 5), re-seeded with [2, 1] against a fresh leaf built from 9. -/
theorem c8_witness :
    seedList 0 [(2 : ℚ), 1]
        (TaylorBridge.reset (⟨Node.var fun _ => (7 : ℚ), 5⟩ : TaylorBridge ℚ)) =
      seedList 0 [(2 : ℚ), 1] (fromScalar 9) :=
  (c8_reset_reseed_equals_fresh (fun _ => (7 : ℚ)) 5 [(2 : ℚ), 1] (by simp) 9).1

/-- C1 counterexample: differentiate does not return the derivative as a plain
floating-point number — on the scalar-constructed series 5 at order 0 it
returns a full TaylorBridge series (the wrapped constant series 5, complete
with its own node and watermark), because the declared return type of the
bridge's differentiate re-wraps the engine's plain value through the scalar
constructor. -/
theorem c1_counterexample :
    differentiate scW (fromScalar (5 : ℚ)) 0 = Except.ok (fromScalar 5) := by
  have h : tdiffVal scW (fromScalar (5 : ℚ)).node 0 = 5 := by
    simp [tdiffVal, fromScalar, pcoeff]
  simp [differentiate, tdiff, fromScalar, errOf] at h ⊢
  simp [h, Except.map, fromScalar]

/-- C1 (amended): for every series x whose coefficients through any order are
computable (no evaluation error) and every order n, differentiate forces the
evaluation and produces exactly the value coefficient n times n-factorial —
the engine extractor tdiff yields it as the plain number, and the bridge
returns it wrapped back into a series through the scalar constructor. -/
theorem c1_differentiate_scaled_coefficient {F : Type} [LinearOrderedField F]
    (sc : Sc F) (x : TaylorBridge F) (n : ℕ) (h : errOf sc x.node = none) :
    differentiate sc x n =
      Except.ok (fromScalar (pcoeff sc x.node n * (n.factorial : F))) ∧
    tdiff sc x n = Except.ok (pcoeff sc x.node n * (n.factorial : F)) := by
  have ht : tdiff sc x n = Except.ok (tdiffVal sc x.node n) := by
    simp [tdiff, h]
  rw [tdiffVal_eq_coeff_mul_factorial] at ht
  exact ⟨by simp [differentiate, ht, Except.map], ht⟩

section Pythagorean

variable {F : Type} [LinearOrderedField F]

/-- The convolution of two coefficient streams is the coefficient stream of the
product of the corresponding formal power series. -/
theorem mk_conv (f g : ℕ → F) :
    PowerSeries.mk f * PowerSeries.mk g = PowerSeries.mk fun n => conv f g n := by
  ext n
  rw [PowerSeries.coeff_mk, PowerSeries.coeff_mul,
    Finset.Nat.sum_antidiagonal_eq_sum_range_succ_mk]
  simp [conv, PowerSeries.coeff_mk]

/-- The sine stream of the joint recurrence differentiates, as a formal power
series, to the derivative of the operand times the cosine stream. -/
theorem deriv_mk_sincos_fst (s0 k0 : F) (a : ℕ → F) :
    PowerSeries.derivativeFun (PowerSeries.mk fun n => (sincosSeq s0 k0 a n).1) =
      PowerSeries.mk (dseq a) * PowerSeries.mk fun n => (sincosSeq s0 k0 a n).2 := by
  rw [mk_conv]
  ext n
  rw [PowerSeries.coeff_derivativeFun, PowerSeries.coeff_mk, PowerSeries.coeff_mk]
  have hne : ((n : F) + 1) ≠ 0 := by positivity
  have hunf : (sincosSeq s0 k0 a (n + 1)).1 =
      (∑ i ∈ Finset.range (n + 1),
        ((i : F) + 1) * a (i + 1) * (sincosSeq s0 k0 a (n - i)).2) / ((n : F) + 1) := by
    simp [sincosSeq]
  rw [hunf, conv]
  rw [div_mul_cancel₀ _ hne]
  exact Finset.sum_congr rfl fun i _ => by rw [dseq]

/-- The cosine stream of the joint recurrence differentiates, as a formal
power series, to the negated derivative of the operand times the sine
stream. -/
theorem deriv_mk_sincos_snd (s0 k0 : F) (a : ℕ → F) :
    PowerSeries.derivativeFun (PowerSeries.mk fun n => (sincosSeq s0 k0 a n).2) =
      -(PowerSeries.mk (dseq a) * PowerSeries.mk fun n => (sincosSeq s0 k0 a n).1) := by
  rw [mk_conv]
  ext n
  rw [PowerSeries.coeff_derivativeFun, PowerSeries.coeff_mk, map_neg,
    PowerSeries.coeff_mk]
  have hne : ((n : F) + 1) ≠ 0 := by positivity
  have hunf : (sincosSeq s0 k0 a (n + 1)).2 =
      -((∑ i ∈ Finset.range (n + 1),
        ((i : F) + 1) * a (i + 1) * (sincosSeq s0 k0 a (n - i)).1) / ((n : F) + 1)) := by
    simp [sincosSeq]
  rw [hunf, conv]
  rw [neg_mul, div_mul_cancel₀ _ hne]
  exact congrArg Neg.neg (Finset.sum_congr rfl fun i _ => by rw [dseq])

/-- The formal power series sin^2 + cos^2 of the joint recurrence has zero
derivative. -/
theorem deriv_pyth_zero (s0 k0 : F) (a : ℕ → F) :
    PowerSeries.derivativeFun
      ((PowerSeries.mk fun n => (sincosSeq s0 k0 a n).1) *
        (PowerSeries.mk fun n => (sincosSeq s0 k0 a n).1) +
       (PowerSeries.mk fun n => (sincosSeq s0 k0 a n).2) *
        (PowerSeries.mk fun n => (sincosSeq s0 k0 a n).2)) = 0 := by
  rw [PowerSeries.derivativeFun_add, PowerSeries.derivativeFun_mul,
    PowerSeries.derivativeFun_mul, deriv_mk_sincos_fst, deriv_mk_sincos_snd]
  simp only [smul_eq_mul]
  ring

/-- Order-by-order Pythagorean identity of the joint sine/cosine recurrence:
given that the order-0 seeds satisfy it, the convolution squares sum to the
constant-one stream. -/
theorem sincos_pyth (s0 k0 : F) (a : ℕ → F) (h : s0 ^ 2 + k0 ^ 2 = 1) (m : ℕ) :
    conv (fun n => (sincosSeq s0 k0 a n).1) (fun n => (sincosSeq s0 k0 a n).1) m +
      conv (fun n => (sincosSeq s0 k0 a n).2) (fun n => (sincosSeq s0 k0 a n).2) m =
      if m = 0 then 1 else 0 := by
  cases m with
  | zero =>
    rw [pow_two, pow_two] at h
    simpa [conv, sincosSeq] using h
  | succ j =>
    have h0 : (PowerSeries.coeff F j) (PowerSeries.derivativeFun
        ((PowerSeries.mk fun n => (sincosSeq s0 k0 a n).1) *
          (PowerSeries.mk fun n => (sincosSeq s0 k0 a n).1) +
         (PowerSeries.mk fun n => (sincosSeq s0 k0 a n).2) *
          (PowerSeries.mk fun n => (sincosSeq s0 k0 a n).2))) = 0 := by
      rw [deriv_pyth_zero]
      simp
    rw [PowerSeries.coeff_derivativeFun] at h0
    have hne : ((j : F) + 1) ≠ 0 := by positivity
    have h1 : (PowerSeries.coeff F (j + 1))
        ((PowerSeries.mk fun n => (sincosSeq s0 k0 a n).1) *
          (PowerSeries.mk fun n => (sincosSeq s0 k0 a n).1) +
         (PowerSeries.mk fun n => (sincosSeq s0 k0 a n).2) *
          (PowerSeries.mk fun n => (sincosSeq s0 k0 a n).2)) = 0 := by
      rcases mul_eq_zero.mp h0 with h' | h'
      · exact h'
      · exact absurd h' hne
    rw [mk_conv, mk_conv, map_add, PowerSeries.coeff_mk, PowerSeries.coeff_mk] at h1
    simpa using h1

end Pythagorean

/-- C4: for every seeded Variable x (any seed sequence f and watermark w) with
order-0 sine and cosine values satisfying the scalar Pythagorean identity, the
series square(sin(x)) + square(cos(x)) has order-0 coefficient 1 and
coefficient 0 at every order at or above 1 (hence, evaluated through any order
n >= 1, every coefficient from 1 through n is 0), with no evaluation error. -/
theorem c4_pythagorean_identity {F : Type} [LinearOrderedField F] (sc : Sc F)
    (f : ℕ → F) (w : ℤ)
    (h : sc.sin0 (f 0) ^ 2 + sc.cos0 (f 0) ^ 2 = 1) :
    coeff sc (BuildAddition (square (sin (⟨Node.var f, w⟩ : TaylorBridge F)))
      (square (cos (⟨Node.var f, w⟩ : TaylorBridge F)))).node 0 = Except.ok 1 ∧
    ∀ m : ℕ, 1 ≤ m →
      coeff sc (BuildAddition (square (sin (⟨Node.var f, w⟩ : TaylorBridge F)))
        (square (cos (⟨Node.var f, w⟩ : TaylorBridge F)))).node m = Except.ok 0 := by
  have herr : errOf sc (BuildAddition (square (sin (⟨Node.var f, w⟩ : TaylorBridge F)))
      (square (cos (⟨Node.var f, w⟩ : TaylorBridge F)))).node = none := by
    simp [BuildAddition, square, sin, cos, errOf, Option.orElse]
  have hco : ∀ m : ℕ, pcoeff sc (BuildAddition (square (sin (⟨Node.var f, w⟩ : TaylorBridge F)))
      (square (cos (⟨Node.var f, w⟩ : TaylorBridge F)))).node m = (if m = 0 then 1 else 0) := by
    intro m
    have hp := sincos_pyth (sc.sin0 (f 0)) (sc.cos0 (f 0)) f h m
    simpa [BuildAddition, square, sin, cos, pcoeff] using hp
  constructor
  · simp [coeff, herr, hco 0]
  · intro m hm
    have hm0 : m ≠ 0 := by omega
    simp [coeff, herr, hco m, hm0]

/-- Witness for C4 with the concrete scalar bundle (sine 0, cosine 1) and the
constant-one seed at order 2. -/
theorem c4_witness :
    coeff scW (BuildAddition (square (sin (⟨Node.var fun _ => (1 : ℚ), 0⟩ : TaylorBridge ℚ)))
      (square (cos (⟨Node.var fun _ => (1 : ℚ), 0⟩ : TaylorBridge ℚ)))).node 0 =
        Except.ok 1 ∧
    coeff scW (BuildAddition (square (sin (⟨Node.var fun _ => (1 : ℚ), 0⟩ : TaylorBridge ℚ)))
      (square (cos (⟨Node.var fun _ => (1 : ℚ), 0⟩ : TaylorBridge ℚ)))).node 2 =
        Except.ok 0 :=
  ⟨(c4_pythagorean_identity scW (fun _ => (1 : ℚ)) 0 (by norm_num [scW])).1,
   (c4_pythagorean_identity scW (fun _ => (1 : ℚ)) 0 (by norm_num [scW])).2 2 (by norm_num)⟩

/-- Witness for C1's amended statement on the scalar-constructed series 3 at
order 1. -/
theorem c1_witness :
    differentiate scW (fromScalar (3 : ℚ)) 1 =
      Except.ok (fromScalar (pcoeff scW (fromScalar (3 : ℚ)).node 1 *
        ((Nat.factorial 1 : ℕ) : ℚ))) ∧
    tdiff scW (fromScalar (3 : ℚ)) 1 =
      Except.ok (pcoeff scW (fromScalar (3 : ℚ)).node 1 * ((Nat.factorial 1 : ℕ) : ℚ)) :=
  c1_differentiate_scaled_coefficient scW (fromScalar (3 : ℚ)) 1
    (by simp [fromScalar, errOf])
